import Mathlib

/-!
Verification development for the reserve-data trade-statistics aggregation
engine (packages `stat` and `stat/storage`).

Conventions of the shallow embedding:
* Go `uint64` values are modelled as `Nat` together with explicit wrap-around
  (`% 2^64`) at every operation that can overflow in Go (`wadd`, `wsub`).
  Theorems that need it carry the hypothesis `t < U64SIZE`.
* Go `float64` amounts are modelled as exact rationals (`ℚ`); the claims under
  study are about which quantities are added where, not about rounding.
* Go maps are modelled either as functions into `Option` (for the nested
  in-memory aggregation maps, where only point lookups and point updates occur)
  or as association lists (where the code iterates over the map's entries:
  iteration order is arbitrary in Go, so theorems quantify over every order).
* Frequency strings ("m"/"M", "h"/"H", "d"/"D", "utc<N>") are represented by the
  inductive `Freq`; both Go functions under study treat the two spellings of a
  letter frequency identically, so one constructor per frequency suffices.
-/

/-- 2^64, the wrap-around modulus of Go's `uint64`. -/
def U64SIZE : Nat := 18446744073709551616

/-- Go `uint64` addition (wraps modulo 2^64). -/
def wadd (a b : Nat) : Nat := (a + b) % U64SIZE

/-- Go `uint64` subtraction (wraps modulo 2^64). -/
def wsub (a b : Nat) : Nat := (a + (U64SIZE - b % U64SIZE)) % U64SIZE

/-- `uint64(time.Minute)`: nanoseconds in a minute. -/
def NS_MIN : Nat := 60000000000

/-- `uint64(time.Hour)`: nanoseconds in an hour. -/
def NS_HOUR : Nat := 3600000000000

/-- `uint64(time.Hour * 24)` (`ui64Day` in the source): nanoseconds in a day. -/
def NS_DAY : Nat := 86400000000000

/-- `REORG_BLOCK_SAFE` from stat/fetcher.go. -/
def REORG_BLOCK_SAFE : Nat := 7

/-- `START_TIMEZONE` from stat/fetcher.go. -/
def START_TIMEZONE : Int := -11

/-- `END_TIMEZONE` from stat/fetcher.go. -/
def END_TIMEZONE : Int := 14

/-- The list of UTC offsets `START_TIMEZONE .. END_TIMEZONE` that the metric
aggregation loop in `aggregateMetricStat` iterates over. -/
def TIMEZONES : List Int := (List.range 26).map (fun k => -11 + (k : Int))

/-- Frequency tags: `M`/`m` (minute), `H`/`h` (hour), `D`/`d` (UTC day), and
`utc<N>` (day shifted by N hours).  This is the embedding of the Go frequency
strings; both Go functions under study switch on exactly these cases. -/
inductive Freq
  | M
  | H
  | D
  | utc (offset : Int)
deriving DecidableEq

/-- `uint64(int64(time.Hour) * offset)`: the (two's-complement reinterpreted)
unsigned offset both `getTimestampFromTimeZone` (stat/fetcher.go) and
`getTimestampByFreq` (stat/storage/stat_bolt.go) compute for a `utc<N>`
frequency.  For a negative `offset` this is `2^64 - |offset|·hour`. -/
def ui64offsetOf (offset : Int) : Nat :=
  (((3600000000000 : Int) * offset) % (18446744073709551616 : Int)).toNat

/-- `getTimestampFromTimeZone` from stat/fetcher.go: truncate a nanosecond
timepoint to the start of its bucket for the given frequency, in `uint64`
arithmetic.  Note that in the `utc<N>` branch the source computes `ui64offset`
from the signed `offset` once, *before* the `offset > 0` test negates
`offset`, so the negative branch subtracts the wrapped `2^64 - |N|·hour`. -/
def getTimestampFromTimeZone (t : Nat) (freq : Freq) : Nat :=
  match freq with
  | .M => t / NS_MIN * NS_MIN
  | .H => t / NS_HOUR * NS_HOUR
  | .D => t / NS_DAY * NS_DAY
  | .utc offset =>
    let ui64offset := ui64offsetOf offset
    if offset > 0 then
      wadd (wadd t ui64offset / NS_DAY * NS_DAY) ui64offset
    else
      wsub (wsub t ui64offset / NS_DAY * NS_DAY) ui64offset

/-- `uint64ToBytes` from stat/storage/stat_bolt.go: 8-byte big-endian encoding
(`binary.BigEndian.PutUint64`). -/
def uint64ToBytes (u : Nat) : List Nat :=
  [u / 2 ^ 56 % 256, u / 2 ^ 48 % 256, u / 2 ^ 40 % 256, u / 2 ^ 32 % 256,
   u / 2 ^ 24 % 256, u / 2 ^ 16 % 256, u / 2 ^ 8 % 256, u % 256]

/-- `getTimestampByFreq` from stat/storage/stat_bolt.go: the store-side bucket
key, i.e. the truncated timepoint encoded as 8 big-endian bytes.  Its body is
the byte-encoded twin of `getTimestampFromTimeZone` in stat/fetcher.go. -/
def getTimestampByFreq (t : Nat) (freq : Freq) : List Nat :=
  match freq with
  | .M => uint64ToBytes (t / NS_MIN * NS_MIN)
  | .H => uint64ToBytes (t / NS_HOUR * NS_HOUR)
  | .D => uint64ToBytes (t / NS_DAY * NS_DAY)
  | .utc offset =>
    let ui64offset := ui64offsetOf offset
    if offset > 0 then
      uint64ToBytes (wadd (wadd t ui64offset / NS_DAY * NS_DAY) ui64offset)
    else
      uint64ToBytes (wsub (wsub t ui64offset / NS_DAY * NS_DAY) ui64offset)

/-! ## Data model (package common, as used by the stat package) -/

/-- `common.Token`: a supported token entry (address → decimals). -/
structure Token where
  ID : String
  Address : String
  Decimal : Nat
deriving DecidableEq

/-- `common.Token.IsETH`.  Modelled from the spec: "`ethAmount` = whichever
side is the ETH token"; the method recognises the ETH entry of the token
table (package common is not under src/). -/
def Token.IsETH (t : Token) : Bool := t.ID == "ETH"

/-- `common.SupportedTokens[id]`: Go map lookup by token ID, returning the
zero `Token` when absent.  The map is modelled as the list of its entries. -/
def supportedTokensGet (tokens : List Token) (id : String) : Token :=
  (tokens.find? (fun tok => tok.ID == id)).getD ⟨"", "", 0⟩

/-- `common.TradeLog`: one decoded trade event.  Amounts are `big.Int` base
units (`Int`), `FiatAmount` is a `float64` modelled as `ℚ`. -/
structure TradeLog where
  Timestamp : Nat
  BlockNumber : Nat
  TxHash : String
  UserAddress : String
  SrcAddress : String
  DestAddress : String
  ReserveAddress : String
  WalletAddress : String
  SrcAmount : Int
  DestAmount : Int
  BurnFee : Option Int
  WalletFee : Option Int
  FiatAmount : ℚ
  IP : String
  Country : String
deriving DecidableEq

/-- `common.SetCatLog`: one category-classification event. -/
structure SetCatLog where
  Timestamp : Nat
  BlockNumber : Nat
  Address : String
  Category : String
deriving DecidableEq

/-- `common.KNLog`, the tagged union of raw logs (`Type()` is "TradeLog" or
"SetCatLog"). -/
inductive RawLog
  | trade (l : TradeLog)
  | setCat (l : SetCatLog)
deriving DecidableEq

/-- `BlockNo()` of a raw log. -/
def rawBlockNo : RawLog → Nat
  | .trade l => l.BlockNumber
  | .setCat l => l.BlockNumber

/-- `strings.ToLower`, modelled character-wise (the addresses and emails in
play are ASCII). -/
def toLowerStr (s : String) : String := ⟨s.data.map Char.toLower⟩

/-- `common.AddrToString`: canonical (lower-case) string form of an address.
Modelled from the spec: addresses are always compared in lower case (§4.5);
package common is not under src/. -/
def addrToString (a : String) : String := toLowerStr a

/-- `strings.Split(k, "_")[0]`: the prefix of `k` before its first
underscore (the address part of an `<addr>_<ts>` key), modelled
character-wise. -/
def addrPart (k : String) : String := ⟨k.data.takeWhile (fun c => c != '_')⟩

/-- `common.BigToFloat`: `big.Int` base units divided by `10^decimals`
(`float64` modelled as an exact rational). -/
def bigToFloat (x : Int) (decimal : Nat) : ℚ := (x : ℚ) / 10 ^ decimal

/-- `common.VolumeStats`: additive volume aggregate. -/
structure VolumeStats where
  ETHVolume : ℚ
  USDAmount : ℚ
  Volume : ℚ
deriving DecidableEq

/-- `common.BurnFeeStats`: additive burn-fee aggregate. -/
structure BurnFeeStats where
  TotalBurnFee : ℚ
deriving DecidableEq

/-- `common.MetricStats`: the per-bucket metric aggregate. -/
structure MetricStats where
  ETHVolume : ℚ
  USDVolume : ℚ
  BurnFee : ℚ
  TradeCount : Nat
  UniqueAddr : Nat
  NewUniqueAddresses : Nat
  KYCEd : Nat
  ETHPerTrade : ℚ
  USDPerTrade : ℚ
deriving DecidableEq

/-- The zero value of `common.MetricStats`. -/
def zeroMetricStats : MetricStats := ⟨0, 0, 0, 0, 0, 0, 0, 0, 0⟩

/-- The result tuple of `Fetcher.getTradeInfo` (stat/fetcher.go): the enriched
amounts, the KYC predicate and the error flag of the user lookup. -/
structure TradeInfo where
  srcAmount : ℚ
  destAmount : ℚ
  ethAmount : ℚ
  burnFee : ℚ
  kycEd : Bool
  err : Bool
deriving DecidableEq

/-- `Fetcher.getTradeInfo` from stat/fetcher.go.  `tokens` stands for the
global `common.SupportedTokens` table and `getUserOfAddress` for the
`userStorage.GetUserOfAddress` collaborator (returning `(email, regTime)` or
an error). -/
def getTradeInfo (tokens : List Token)
    (getUserOfAddress : String → Except String (String × Nat))
    (trade : TradeLog) : TradeInfo :=
  let srcAddr := addrToString trade.SrcAddress
  let dstAddr := addrToString trade.DestAddress
  let amounts := tokens.foldl (fun (a : ℚ × ℚ × ℚ) token =>
    let a :=
      if toLowerStr token.Address = srcAddr then
        let srcAmount := bigToFloat trade.SrcAmount token.Decimal
        (srcAmount, a.2.1, if token.IsETH then srcAmount else a.2.2)
      else a
    if toLowerStr token.Address = dstAddr then
      let destAmount := bigToFloat trade.DestAmount token.Decimal
      (a.1, destAmount, if token.IsETH then destAmount else a.2.2)
    else a) (0, 0, 0)
  let eth := supportedTokensGet tokens "ETH"
  let burnFee : ℚ :=
    match trade.BurnFee with
    | some b => bigToFloat b eth.Decimal
    | none => 0
  let userAddr := toLowerStr trade.UserAddress
  match getUserOfAddress userAddr with
  | .error _ =>
    { srcAmount := amounts.1, destAmount := amounts.2.1, ethAmount := amounts.2.2,
      burnFee := burnFee, kycEd := false, err := true }
  | .ok (email, regTime) =>
    { srcAmount := amounts.1, destAmount := amounts.2.1, ethAmount := amounts.2.2,
      burnFee := burnFee,
      kycEd := decide (email ≠ "" ∧ email ≠ userAddr ∧ regTime < trade.Timestamp),
      err := false }


/-! ## In-memory volume aggregation (stat/fetcher.go) -/

/-- `common.VolumeStatsTimeZone`: `map[string]map[uint64]VolumeStats`, keyed
by frequency then bucket timestamp. -/
def VolumeStatsTimeZone : Type := Freq → Option (Nat → Option VolumeStats)

/-- `Fetcher.aggregateVolumeStat` from stat/fetcher.go: fold one (key, amount)
contribution into the in-memory volume map for each of the frequencies
M, H, D. -/
def aggregateVolumeStat (trade : TradeLog) (assetAddr : String)
    (assetAmount ethAmount fiatAmount : ℚ)
    (assetVolumetStats : String → Option VolumeStatsTimeZone) :
    String → Option VolumeStatsTimeZone :=
  [Freq.M, Freq.H, Freq.D].foldl (fun stats freq =>
    let timestamp := getTimestampFromTimeZone trade.Timestamp freq
    let currentVolume := (stats assetAddr).getD (fun _ => none)
    let dataTimeZone := (currentVolume freq).getD (fun _ => none)
    let data := (dataTimeZone timestamp).getD ⟨0, 0, 0⟩
    let data : VolumeStats :=
      { data with
        ETHVolume := data.ETHVolume + ethAmount,
        USDAmount := data.USDAmount + fiatAmount,
        Volume := data.Volume + assetAmount }
    fun key =>
      if key = assetAddr then
        some (fun f =>
          if f = freq then
            some (fun ts => if ts = timestamp then some data else dataTimeZone ts)
          else currentVolume f)
      else stats key) assetVolumetStats

/-- `Fetcher.aggregateVolumeStats` from stat/fetcher.go: the volume pipeline's
per-trade reducer.  Note the argument order of the third call ("user volume"),
taken verbatim from the source: it passes `srcAmount` in the asset-amount
position and `destAmount` in the `ethAmount` position. -/
def aggregateVolumeStats (tokens : List Token)
    (getUserOfAddress : String → Except String (String × Nat))
    (trade : TradeLog)
    (volumeStats : String → Option VolumeStatsTimeZone) :
    String → Option VolumeStatsTimeZone :=
  let srcAddr := addrToString trade.SrcAddress
  let dstAddr := addrToString trade.DestAddress
  let userAddr := addrToString trade.UserAddress
  let info := getTradeInfo tokens getUserOfAddress trade
  let volumeStats :=
    aggregateVolumeStat trade srcAddr info.srcAmount info.ethAmount trade.FiatAmount volumeStats
  let volumeStats :=
    aggregateVolumeStat trade dstAddr info.destAmount info.ethAmount trade.FiatAmount volumeStats
  aggregateVolumeStat trade userAddr info.srcAmount info.destAmount trade.FiatAmount volumeStats

/-- Read path of the in-memory volume map (each Go `exist` check defaults to
the zero value when the key is absent). -/
def volumeAt (stats : String → Option VolumeStatsTimeZone)
    (key : String) (freq : Freq) (ts : Nat) : VolumeStats :=
  ((((stats key).getD (fun _ => none)) freq).getD (fun _ => none) ts).getD ⟨0, 0, 0⟩

/-! ## In-memory metric aggregation (stat/fetcher.go) -/

/-- `common.MetricStatsTimeZone`: `map[int64]map[uint64]MetricStats`, keyed by
UTC offset then bucket timestamp. -/
def MetricStatsTimeZone : Type := Int → Option (Nat → Option MetricStats)

/-- The empty `MetricStatsTimeZone` map. -/
def emptyTZ : MetricStatsTimeZone := fun _ => none

/-- The empty inner bucket map. -/
def emptyInner : Nat → Option MetricStats := fun _ => none

/-- The body of one iteration of the `aggregateMetricStat` loop that mutates
the `MetricStats` record: the unique-address / KYC increments followed by the
unconditional volume and count increments. -/
def metricMerge (trade : TradeLog) (ethAmount burnFee : ℚ) (kycEd : Bool)
    (timeFirstTrade firstTradeInday : Nat) (data : MetricStats) : MetricStats :=
  let data :=
    if timeFirstTrade = trade.Timestamp then
      { data with
        NewUniqueAddresses := data.NewUniqueAddresses + 1,
        UniqueAddr := data.UniqueAddr + 1,
        KYCEd := if kycEd then data.KYCEd + 1 else data.KYCEd }
    else
      if firstTradeInday = trade.Timestamp then
        { data with
          UniqueAddr := data.UniqueAddr + 1,
          KYCEd := if kycEd then data.KYCEd + 1 else data.KYCEd }
      else data
  { data with
    ETHVolume := data.ETHVolume + ethAmount,
    BurnFee := data.BurnFee + burnFee,
    TradeCount := data.TradeCount + 1,
    USDVolume := data.USDVolume + trade.FiatAmount }

/-- One iteration (UTC offset `i`) of the loop in `Fetcher.aggregateMetricStat`
(stat/fetcher.go).  `firstInDay` stands for the
`statStorage.GetFirstTradeInDay` collaborator (0 when no value is stored) and
`allFirstTradeEver` for the snapshot map taken at pipeline start (Go map
lookup: 0 when absent). -/
def aggregateMetricStatTZ (firstInDay : String → Nat → Int → Nat)
    (trade : TradeLog) (statKey : String) (ethAmount burnFee : ℚ)
    (kycEd : Bool) (allFirstTradeEver : String → Nat) (i : Int)
    (metricStats : String → Option MetricStatsTimeZone) :
    String → Option MetricStatsTimeZone :=
  let userAddr := addrToString trade.UserAddress
  let timestamp := getTimestampFromTimeZone trade.Timestamp (Freq.utc i)
  let currentMetricData := (metricStats statKey).getD emptyTZ
  let dataTimeZone := (currentMetricData i).getD emptyInner
  let data := (dataTimeZone timestamp).getD zeroMetricStats
  let data := metricMerge trade ethAmount burnFee kycEd
    (allFirstTradeEver userAddr) (firstInDay userAddr trade.Timestamp i) data
  fun key =>
    if key = statKey then
      some (fun tz =>
        if tz = i then
          some (fun ts => if ts = timestamp then some data else dataTimeZone ts)
        else currentMetricData tz)
    else metricStats key

/-- `Fetcher.aggregateMetricStat` from stat/fetcher.go: the shared
`MetricStats` merge of the trade-summary, wallet and country pipelines, folded
over all 26 UTC offsets. -/
def aggregateMetricStat (firstInDay : String → Nat → Int → Nat)
    (trade : TradeLog) (statKey : String) (ethAmount burnFee : ℚ)
    (metricStats : String → Option MetricStatsTimeZone)
    (kycEd : Bool) (allFirstTradeEver : String → Nat) :
    String → Option MetricStatsTimeZone :=
  TIMEZONES.foldl
    (fun ms i =>
      aggregateMetricStatTZ firstInDay trade statKey ethAmount burnFee kycEd
        allFirstTradeEver i ms)
    metricStats

/-- Read path of the in-memory metric map (each Go `exist` check defaults to
the zero value when the key is absent). -/
def statsAt (ms : String → Option MetricStatsTimeZone)
    (statKey : String) (i : Int) (ts : Nat) : MetricStats :=
  ((((ms statKey).getD emptyTZ) i).getD emptyInner ts).getD zeroMetricStats

/-- The timezone-`i` component of the in-memory metric map at `statKey`
(the value the Go code reads as `metricStats[statKey][i]`). -/
def tzComp (ms : String → Option MetricStatsTimeZone) (statKey : String)
    (i : Int) : Option (Nat → Option MetricStats) :=
  ((ms statKey).getD emptyTZ) i

/-- What one loop iteration of `aggregateMetricStat` turns the timezone-`i`
component into: the bucket at the trade's `utc<i>` timestamp is merged via
`metricMerge`, every other bucket is kept. -/
def tzUpdated (fid : String → Nat → Int → Nat) (trade : TradeLog)
    (e b : ℚ) (k : Bool) (a : String → Nat) (i : Int)
    (comp : Option (Nat → Option MetricStats)) : Option (Nat → Option MetricStats) :=
  let ua := addrToString trade.UserAddress
  let timestamp := getTimestampFromTimeZone trade.Timestamp (Freq.utc i)
  some (fun ts =>
    if ts = timestamp then
      some (metricMerge trade e b k (a ua) (fid ua trade.Timestamp i)
        ((comp.getD emptyInner timestamp).getD zeroMetricStats))
    else comp.getD emptyInner ts)

/-! ## First-trade bookkeeping (stat/storage/stat_bolt.go) -/

/-- `BoltStatStorage.DidTrade`: true iff a first-trade-ever value is already
stored for `userAddr` and it is `≤ timepoint`.  The `user_first_trade_ever`
bucket is modelled as a partial map from address to timepoint. -/
def didTrade (store : String → Option Nat) (userAddr : String)
    (timepoint : Nat) : Bool :=
  match store userAddr with
  | some savedTimepoint => savedTimepoint ≤ timepoint
  | none => false

/-- The body of the `SetFirstTradeEver` loop for one `(key, timepoint)` entry
(key = `<addr>_<ts>`): store `timepoint` under the key's address part unless
`DidTrade` already holds. -/
def setFirstTradeEverStep (st : String → Option Nat) (kv : String × Nat) :
    String → Option Nat :=
  let userAddr := addrPart kv.1
  if didTrade st userAddr kv.2 then st
  else fun a => if a = userAddr then some kv.2 else st a

/-- `BoltStatStorage.SetFirstTradeEver`: the loop over the entries of the
argument map (iterated in arbitrary order in Go, so modelled as a list of
entries quantified over every order). -/
def setFirstTradeEver (store : String → Option Nat)
    (userAddrs : List (String × Nat)) : String → Option Nat :=
  userAddrs.foldl setFirstTradeEverStep store

/-- Specification-side fold: the minimum of an optional previous value and a
list of timepoints (`none` when both are absent). -/
def minFold (prev : Option Nat) (tps : List Nat) : Option Nat :=
  tps.foldl (fun acc t =>
    match acc with
    | some v => some (min v t)
    | none => some t) prev

/-- `BoltStatStorage.GetFirstTradeEver`: stored value, 0 when absent
(`bytesToUint64` of `nil` is 0). -/
def getFirstTradeEver (store : String → Option Nat) (userAddr : String) : Nat :=
  (store userAddr).getD 0

/-- The first-trade-in-day store (`user_stat_bucket`): timezone → day-bucket →
address → timepoint.  The bolt day-bucket key `getTimestampByFreq(timepoint,
"utc<tz>")` is represented by its decoded `uint64` value. -/
def FirstInDayStore : Type := Int → Nat → String → Option Nat

/-- `BoltStatStorage.DidTradeInDay`: true iff a first-trade-in-day value is
stored for `userAddr` in the day bucket of `timepoint` under `timezone` and it
is `≤ timepoint`. -/
def didTradeInDay (s : FirstInDayStore) (userAddr : String)
    (timepoint : Nat) (timezone : Int) : Bool :=
  match s timezone (getTimestampFromTimeZone timepoint (Freq.utc timezone)) userAddr with
  | some savedTimepoint => savedTimepoint ≤ timepoint
  | none => false

/-- `BoltStatStorage.GetFirstTradeInDay`: stored value for `(userAddr,
day-bucket of timepoint, timezone)`, 0 when absent. -/
def getFirstTradeInDayStore (s : FirstInDayStore) (userAddr : String)
    (timepoint : Nat) (timezone : Int) : Nat :=
  (s timezone (getTimestampFromTimeZone timepoint (Freq.utc timezone)) userAddr).getD 0

/-- `BoltStatStorage.SetFirstTradeInDay`: for each `(key, timepoint)` entry and
each timezone, store `timepoint` for the key's address part in the day bucket
of `timepoint` unless `DidTradeInDay` already holds. -/
def setFirstTradeInDay (store : FirstInDayStore)
    (userAddrs : List (String × Nat)) : FirstInDayStore :=
  userAddrs.foldl (fun s kv =>
    let userAddr := addrPart kv.1
    TIMEZONES.foldl (fun s timezone =>
      let timestamp := getTimestampFromTimeZone kv.2 (Freq.utc timezone)
      if didTradeInDay s userAddr kv.2 timezone then s
      else fun tz d a =>
        if tz = timezone ∧ d = timestamp ∧ a = userAddr then some kv.2
        else s tz d a) s) store

/-! ## Log fetcher (stat/fetcher.go) -/

/-- The collaborators of `RunLogFetcher` / `FetchLogs`: the `Blockchain`
capability (`GetLogs`, plus the cached `currentBlock`), the geolocation lookup
`GetTradeGeo` (tx hash → (ip, country)), and the deploy block. -/
structure LogFetcherEnv where
  getLogs : Nat → Nat → Except String (List RawLog)
  getTradeGeo : String → String × String
  currentBlock : Nat
  deployBlock : Nat

/-- The log store (`logStorage`): the persisted last fetched block and the
stored trade/category logs. -/
structure LogDB where
  lastBlock : Nat
  tradeLogs : List (TradeLog × Nat)
  catLogs : List SetCatLog
deriving DecidableEq

/-- Result of `Fetcher.FetchLogs`: the updated store, the returned block
number, and the returned error (if any). -/
structure FetchLogsResult where
  db : LogDB
  next : Nat
  err : Option String
deriving DecidableEq

/-- `Fetcher.FetchLogs` from stat/fetcher.go.  On a chain error it returns
`fromBlock - 1` (0 when `fromBlock` is 0) together with the error and stores
nothing; otherwise it persists each log (trade logs after geolocation
enrichment) and returns the maximum block number, or `fromBlock - 1` when the
window is empty. -/
def fetchLogs (env : LogFetcherEnv) (fromBlock toBlock timepoint : Nat)
    (db : LogDB) : FetchLogsResult :=
  match env.getLogs fromBlock toBlock with
  | .error e =>
    if fromBlock = 0 then ⟨db, 0, some e⟩
    else ⟨db, fromBlock - 1, some e⟩
  | .ok logs =>
    if logs.isEmpty then ⟨db, wsub fromBlock 1, none⟩
    else
      let db1 := logs.foldl (fun d il =>
        match il with
        | .trade l =>
          let g := env.getTradeGeo l.TxHash
          let l := { l with IP := g.1, Country := g.2 }
          { d with tradeLogs := d.tradeLogs ++ [(l, timepoint)] }
        | .setCat l => { d with catLogs := d.catLogs ++ [l] }) db
      let max := logs.foldl (fun m l => if rawBlockNo l > m then rawBlockNo l else m) 0
      ⟨db1, max, none⟩

/-- The upper bound of the fetch window computed by `RunLogFetcher`
(stat/fetcher.go): `lastBlock + 1 + 1440` capped at
`currentBlock - REORG_BLOCK_SAFE`, in `uint64` arithmetic. -/
def logFetcherToBlock (lastBlock currentBlock : Nat) : Nat :=
  let toBlock := wadd (wadd lastBlock 1) 1440
  if toBlock > wsub currentBlock REORG_BLOCK_SAFE then
    wsub currentBlock REORG_BLOCK_SAFE
  else toBlock

/-- One tick of `Fetcher.RunLogFetcher` (stat/fetcher.go).  `LastBlock()` is
modelled as the total read of `db.lastBlock` (the bolt implementation errors
only when its bucket is missing, which initialisation precludes). -/
def runLogFetcherTick (env : LogFetcherEnv) (timepoint : Nat) (db : LogDB) : LogDB :=
  let lastBlock0 := db.lastBlock
  let lastBlock := if lastBlock0 = 0 then env.deployBlock else lastBlock0
  let toBlock := logFetcherToBlock lastBlock env.currentBlock
  if wadd lastBlock 1 > toBlock then db
  else
    let r := fetchLogs env (wadd lastBlock 1) toBlock timepoint db
    match r.err with
    | some _ => r.db
    | none =>
      let nextBlock := r.next
      let nextBlock := if nextBlock = lastBlock ∧ toBlock ≠ 0 then toBlock else nextBlock
      { r.db with lastBlock := nextBlock }

/-! ## Aggregation pipeline skeleton (stat/fetcher.go) -/

/-- `USER_AGGREGATION` pipeline name constant. -/
def USER_AGGREGATION : String := "user_aggregation"

/-- `VOLUME_STAT_AGGREGATION` pipeline name constant. -/
def VOLUME_STAT_AGGREGATION : String := "volume_stat_aggregation"

/-- The collaborators a pipeline run reads: the tick time (already converted by
`common.TimeToTimepoint(t) * 1000000`), `logStorage.MaxRange`, and the log
store queries. -/
structure AggEnv where
  nowTimepoint : Nat
  maxRange : Nat
  getFirstTradeLog : Except String TradeLog
  getLastTradeLog : Except String TradeLog
  getTradeLogs : Nat → Nat → Except String (List TradeLog)

/-- The aggregate stores a pipeline run may write (besides checkpoints). -/
structure AggStores where
  firstTradeEver : String → Option Nat
  firstTradeInDay : FirstInDayStore
  volumeStats : String → Option VolumeStatsTimeZone
  metricStats : String → Option MetricStatsTimeZone

/-- The stat-storage state visible to a pipeline run: the per-pipeline
checkpoints (`tradelog_processor_state`, read by
`GetLastProcessedTradeLogTimepoint`, a total read defaulting to 0) and the
aggregate stores. -/
structure AggState where
  lastProcessed : String → Nat
  aggregates : AggStores

/-- `Fetcher.GetTradeLogTimeRange` from stat/fetcher.go: `fromTime` is the
checkpoint plus one (falling back to `firstTradeLog.Timestamp - 1` when there
is no checkpoint, and staying at 1 when that lookup errors), `toTime` is the
tick time capped at `fromTime + MaxRange`, all in `uint64` arithmetic. -/
def getTradeLogTimeRange (env : AggEnv) (fromTime0 : Nat) : Nat × Nat :=
  let fromTime := wadd fromTime0 1
  let fromTime :=
    if fromTime = 1 then
      match env.getFirstTradeLog with
      | .ok l => wsub l.Timestamp 1
      | .error _ => fromTime
    else fromTime
  let toTime := env.nowTimepoint
  let toTime :=
    if wsub toTime fromTime > env.maxRange then wadd fromTime env.maxRange
    else toTime
  (fromTime, toTime)

/-- The shared skeleton of the seven `Run*Aggregation` functions in
stat/fetcher.go (the claim's sources are `RunVolumeStatAggregation` and
`RunUserAggregation`): read the pipeline checkpoint, compute the time range,
fetch the trade logs; on a non-empty batch run the pipeline-specific body
`processLogs`; on an empty batch advance the checkpoint to `toTime` exactly
when the last stored trade log is strictly newer than `toTime`. -/
def runAggregationStep (env : AggEnv) (pipelineName : String)
    (processLogs : List TradeLog → AggState → AggState)
    (st : AggState) : AggState :=
  let fromTime0 := st.lastProcessed pipelineName
  let ft := getTradeLogTimeRange env fromTime0
  match env.getTradeLogs ft.1 ft.2 with
  | .error _ => st
  | .ok tradeLogs =>
    if tradeLogs.isEmpty then
      match env.getLastTradeLog with
      | .error _ => st
      | .ok l =>
        if ft.2 < l.Timestamp then
          { st with
            lastProcessed := fun p =>
              if p = pipelineName then ft.2 else st.lastProcessed p }
        else st
    else processLogs tradeLogs st

/-- Go map insertion `m[k] = v` on an association-list model: replace the
entry when the key is present, append otherwise. -/
def mapPut (l : List (String × Nat)) (k : String) (v : Nat) : List (String × Nat) :=
  if l.any (fun kv => kv.1 = k) then
    l.map (fun kv => if kv.1 = k then (k, v) else kv)
  else l ++ [(k, v)]

/-- The non-empty-batch body of `Fetcher.RunUserAggregation`
(stat/fetcher.go): build the `<addr>_<ts> → ts` map and the maximum timestamp,
then `SetFirstTradeEver`, `SetFirstTradeInDay` and the checkpoint write. -/
def userProcessLogs (tradeLogs : List TradeLog) (st : AggState) : AggState :=
  let acc := tradeLogs.foldl (fun (p : List (String × Nat) × Nat) trade =>
    let userAddr := addrToString trade.UserAddress
    let key := userAddr ++ "_" ++ toString trade.Timestamp
    let userTradeList := mapPut p.1 key trade.Timestamp
    let last := if trade.Timestamp > p.2 then trade.Timestamp else p.2
    (userTradeList, last)) ([], 0)
  let st :=
    { st with
      aggregates :=
        { st.aggregates with
          firstTradeEver := setFirstTradeEver st.aggregates.firstTradeEver acc.1,
          firstTradeInDay := setFirstTradeInDay st.aggregates.firstTradeInDay acc.1 } }
  { st with
    lastProcessed := fun p =>
      if p = USER_AGGREGATION then acc.2 else st.lastProcessed p }

/-- `Fetcher.RunUserAggregation` (stat/fetcher.go) as an instance of the
skeleton. -/
def runUserAggregation (env : AggEnv) (st : AggState) : AggState :=
  runAggregationStep env USER_AGGREGATION userProcessLogs st

/-! ## Concrete inputs used by witnesses and counterexamples -/

/-- A concrete trade log used by witnesses: an ETH → token trade (2 ETH in,
100 tokens out). -/
def sampleTrade : TradeLog :=
  { Timestamp := 60000000000, BlockNumber := 60, TxHash := "0xt1",
    UserAddress := "0xabc", SrcAddress := "0xeee", DestAddress := "0xaaa",
    ReserveAddress := "0xr1", WalletAddress := "0xw1",
    SrcAmount := 2000000000000000000, DestAmount := 100000000000000000000,
    BurnFee := none, WalletFee := none, FiatAmount := 7, IP := "", Country := "" }

/-- A concrete token table: ETH (18 decimals, address 0xeee) and one other
token (18 decimals, address 0xaaa). -/
def sampleTokens : List Token :=
  [⟨"ETH", "0xeee", 18⟩, ⟨"KNC", "0xaaa", 18⟩]

/-- A concrete user-identity store: address `0xabc` belongs to `v@example`,
registered at time 100. -/
def sampleUserStore : String → Except String (String × Nat) :=
  fun a => if a = "0xabc" then .ok ("v@example", 100) else .error "no user"

/-- A concrete blockchain collaborator whose `GetLogs` always fails. -/
def failingChain : LogFetcherEnv :=
  { getLogs := fun _ _ => .error "boom",
    getTradeGeo := fun _ => ("", ""),
    currentBlock := 100, deployBlock := 3 }

/-- A concrete log store positioned at block 50. -/
def sampleLogDB : LogDB := { lastBlock := 50, tradeLogs := [], catLogs := [] }

/-- A concrete pipeline environment that returns no trade logs for any range
but has a last trade log at time 500. -/
def emptyRangeEnv : AggEnv :=
  { nowTimepoint := 100, maxRange := 1000,
    getFirstTradeLog := .error "no first",
    getLastTradeLog := .ok { sampleTrade with Timestamp := 500 },
    getTradeLogs := fun _ _ => .ok [] }

/-- Empty aggregate stores. -/
def emptyStores : AggStores :=
  { firstTradeEver := fun _ => none, firstTradeInDay := fun _ _ _ => none,
    volumeStats := fun _ => none, metricStats := fun _ => none }

/-- A concrete pipeline state with every checkpoint at 5. -/
def sampleAggState : AggState :=
  { lastProcessed := fun _ => 5, aggregates := emptyStores }

/-- A concrete first-trade-ever store: address `0xaaa` first traded at 9. -/
def sampleFirstEverStore : String → Option Nat :=
  fun a => if a = "0xaaa" then some 9 else none

/-- Concrete `SetFirstTradeEver` input entries (`<addr>_<ts>` keys). -/
def sampleFirstEverEntries : List (String × Nat) :=
  [("0xaaa_7", 7), ("0xbbb_4", 4), ("0xaaa_12", 12)]

/-- A concrete first-trade-in-day oracle storing nothing. -/
def sampleFirstInDay : String → Nat → Int → Nat := fun _ _ _ => 0

/-- A concrete first-trade-ever snapshot: `0xabc` first traded at
`sampleTrade`'s timestamp. -/
def sampleAllFirstTradeEver : String → Nat :=
  fun a => if a = "0xabc" then 60000000000 else 0

/-! ## C4: the utc7 truncation scenario -/

/-- C4 counterexample: at t = 1,520,825,136,556,000,000 ns with frequency
`utc7`, the time-bucketing primitive does *not* return the bucket start
1,520,809,200,000,000,000 claimed by the spec scenario. -/
theorem c4_counterexample :
    getTimestampFromTimeZone 1520825136556000000 (Freq.utc 7) ≠ 1520809200000000000 := by
  decide

/-- C4 (amended): at t = 1,520,825,136,556,000,000 ns with frequency `utc7`
the time-bucketing primitive returns bucket start 1,520,838,000,000,000,000 ns
(this is what the source formula `((t + 7h) / day) · day + 7h` yields), both
from the writer-side function and, byte-encoded, from the store-side one. -/
theorem c4_utc7_bucket_start :
    getTimestampFromTimeZone 1520825136556000000 (Freq.utc 7) = 1520838000000000000
    ∧ getTimestampByFreq 1520825136556000000 (Freq.utc 7)
        = uint64ToBytes 1520838000000000000 := by
  constructor
  · decide
  · decide

/-! ## C10: writer-side and store-side truncation agree -/

/-- C10: for every timepoint and frequency, the store-side bucket key
`getTimestampByFreq` (stat_bolt.go) is exactly the 8-byte big-endian encoding
of the writer-side truncation `getTimestampFromTimeZone` (fetcher.go), so
readers and writers address identical bucket keys. -/
theorem c10_bucket_key_agreement (t : Nat) (f : Freq) :
    getTimestampByFreq t f = uint64ToBytes (getTimestampFromTimeZone t f) := by
  cases f with
  | M => rfl
  | H => rfl
  | D => rfl
  | utc offset =>
    simp only [getTimestampByFreq, getTimestampFromTimeZone]
    by_cases h : offset > 0
    · simp [h]
    · simp [h]

/-! ## C9: the KYC predicate -/

/-- C9: for every trade whose lower-cased user address resolves to
`(email, regTime)`, `getTradeInfo` reports the trade as KYC-ed exactly when
the email is non-empty, different from the (lower-cased) user address, and the
registration time is strictly before the trade's timestamp. -/
theorem c9_kyc_predicate (tokens : List Token)
    (getUserOfAddress : String → Except String (String × Nat))
    (trade : TradeLog) (email : String) (regTime : Nat)
    (h : getUserOfAddress (toLowerStr trade.UserAddress) = .ok (email, regTime)) :
    (getTradeInfo tokens getUserOfAddress trade).kycEd = true ↔
      (email ≠ "" ∧ email ≠ toLowerStr trade.UserAddress ∧ regTime < trade.Timestamp) := by
  simp only [getTradeInfo, h]
  simp

/-- C9 witness: with registrationTime = 100 and email `v@example`, a trade at
t = 110 is KYC-ed and a trade at t = 90 is not. -/
theorem c9_kyc_predicate_witness :
    sampleUserStore "0xabc" = .ok ("v@example", 100)
    ∧ (getTradeInfo sampleTokens sampleUserStore
        { sampleTrade with Timestamp := 110 }).kycEd = true
    ∧ (getTradeInfo sampleTokens sampleUserStore
        { sampleTrade with Timestamp := 90 }).kycEd = false := by
  refine ⟨rfl, ?_, ?_⟩
  · exact (c9_kyc_predicate sampleTokens sampleUserStore
      { sampleTrade with Timestamp := 110 } "v@example" 100 rfl).mpr (by decide)
  · have h := c9_kyc_predicate sampleTokens sampleUserStore
      { sampleTrade with Timestamp := 90 } "v@example" 100 rfl
    have hnot : ¬("v@example" ≠ "" ∧
        "v@example" ≠ toLowerStr ({ sampleTrade with Timestamp := 90 } : TradeLog).UserAddress ∧
        100 < ({ sampleTrade with Timestamp := 90 } : TradeLog).Timestamp) := by decide
    cases hkyc : (getTradeInfo sampleTokens sampleUserStore
        { sampleTrade with Timestamp := 90 }).kycEd
    · rfl
    · exact absurd (h.mp hkyc) hnot

/-! ## C7: the fetch window bound -/

/-- C7: with sensible block numbers (at least `REORG_BLOCK_SAFE`, no `uint64`
overflow), the upper bound of the fetched window is
`min (lastBlock + 1 + 1440) (currentBlock - 7)`, and a tick whose
`lastBlock + 1` exceeds that bound issues no fetch and leaves the log store
untouched. -/
theorem c7_fetch_window (lastBlock currentBlock : Nat)
    (h7 : REORG_BLOCK_SAFE ≤ currentBlock) (hc : currentBlock < U64SIZE)
    (hl : lastBlock + 1441 < U64SIZE) :
    logFetcherToBlock lastBlock currentBlock
      = min (lastBlock + 1 + 1440) (currentBlock - REORG_BLOCK_SAFE)
    ∧ (∀ (env : LogFetcherEnv) (timepoint : Nat) (db : LogDB),
        env.currentBlock = currentBlock → db.lastBlock = lastBlock →
        lastBlock ≠ 0 →
        lastBlock + 1 > min (lastBlock + 1 + 1440) (currentBlock - REORG_BLOCK_SAFE) →
        runLogFetcherTick env timepoint db = db) := by
  have hw1 : wadd (wadd lastBlock 1) 1440 = lastBlock + 1 + 1440 := by
    unfold wadd U64SIZE at *
    omega
  have hw7 : wsub currentBlock REORG_BLOCK_SAFE = currentBlock - REORG_BLOCK_SAFE := by
    unfold wsub REORG_BLOCK_SAFE U64SIZE at *
    omega
  have hmin : logFetcherToBlock lastBlock currentBlock
      = min (lastBlock + 1 + 1440) (currentBlock - REORG_BLOCK_SAFE) := by
    simp only [logFetcherToBlock, hw1, hw7]
    split
    · omega
    · omega
  refine ⟨hmin, ?_⟩
  intro env timepoint db hce hdb hnz hskip
  have hwl : wadd lastBlock 1 = lastBlock + 1 := by
    unfold wadd U64SIZE at *
    omega
  simp only [runLogFetcherTick, hdb, hce, if_neg hnz, hwl, hmin]
  rw [if_pos hskip]

/-- C7 witness: with `currentBlock = 100`, `lastBlock = 50` the window bound is
93; with `currentBlock = 101`, `lastBlock = 93` it is 94. -/
theorem c7_fetch_window_witness :
    REORG_BLOCK_SAFE ≤ 100 ∧ 100 < U64SIZE ∧ 50 + 1441 < U64SIZE
    ∧ logFetcherToBlock 50 100 = 93
    ∧ logFetcherToBlock 93 101 = 94 :=
  ⟨by decide, by decide, by decide,
   (c7_fetch_window 50 100 (by decide) (by decide) (by decide)).1.trans (by decide),
   (c7_fetch_window 93 101 (by decide) (by decide) (by decide)).1.trans (by decide)⟩

/-! ## C8: chain errors roll the window back -/

/-- C8: when the blockchain collaborator fails on `[fromBlock, toBlock]` with
`fromBlock > 0`, `FetchLogs` returns `fromBlock - 1` together with the error
and stores nothing, and a `RunLogFetcher` tick issuing that window leaves the
log store (in particular its last-block checkpoint) unchanged, so the same
window is retried on the next tick. -/
theorem c8_fetch_error_rollback (env : LogFetcherEnv)
    (timepoint fromBlock toBlock : Nat) (db : LogDB) (e : String)
    (h0 : 0 < fromBlock)
    (herr : env.getLogs fromBlock toBlock = .error e) :
    fetchLogs env fromBlock toBlock timepoint db = ⟨db, fromBlock - 1, some e⟩
    ∧ (∀ db2 : LogDB, db2.lastBlock ≠ 0 →
        fromBlock = wadd db2.lastBlock 1 →
        toBlock = logFetcherToBlock db2.lastBlock env.currentBlock →
        runLogFetcherTick env timepoint db2 = db2) := by
  have hne : ¬fromBlock = 0 := by omega
  have hfl : ∀ d : LogDB, fetchLogs env fromBlock toBlock timepoint d
      = ⟨d, fromBlock - 1, some e⟩ := by
    intro d
    simp only [fetchLogs, herr, if_neg hne]
  refine ⟨hfl db, ?_⟩
  intro db2 hnz hfrom hto
  simp only [runLogFetcherTick, if_neg hnz]
  by_cases hskip : wadd db2.lastBlock 1 > logFetcherToBlock db2.lastBlock env.currentBlock
  · rw [if_pos hskip]
  · rw [if_neg hskip, ← hfrom, ← hto, hfl db2]

/-- C8 witness: with a chain that fails, the window `[51, toBlock]` rolls back
to 50 and the tick leaves the store at block 50. -/
theorem c8_fetch_error_rollback_witness :
    fetchLogs failingChain 51 (logFetcherToBlock 50 failingChain.currentBlock) 0 sampleLogDB
      = ⟨sampleLogDB, 50, some "boom"⟩
    ∧ runLogFetcherTick failingChain 0 sampleLogDB = sampleLogDB := by
  have h := c8_fetch_error_rollback failingChain 0 51
    (logFetcherToBlock 50 failingChain.currentBlock) sampleLogDB "boom" (by decide) rfl
  exact ⟨h.1, h.2 sampleLogDB (by decide) (by decide) rfl⟩

/-! ## C6: empty-range checkpoint advance -/

/-- C6: in a pipeline run whose `GetTradeLogs` query returns the empty list,
the pipeline's checkpoint is set to `toTs` exactly when the last stored trade
log's timestamp is strictly greater than `toTs` (nothing else changes), and
the whole state — checkpoint and aggregates — is left unchanged otherwise.
`runAggregationStep` is the common skeleton of `RunVolumeStatAggregation`,
`RunUserAggregation` and the other pipeline runners in stat/fetcher.go. -/
theorem c6_empty_range_checkpoint (env : AggEnv) (pipelineName : String)
    (processLogs : List TradeLog → AggState → AggState) (st : AggState)
    (hempty : env.getTradeLogs
        (getTradeLogTimeRange env (st.lastProcessed pipelineName)).1
        (getTradeLogTimeRange env (st.lastProcessed pipelineName)).2 = .ok []) :
    ((∃ l, env.getLastTradeLog = .ok l ∧
        (getTradeLogTimeRange env (st.lastProcessed pipelineName)).2 < l.Timestamp) →
      ((runAggregationStep env pipelineName processLogs st).lastProcessed pipelineName
          = (getTradeLogTimeRange env (st.lastProcessed pipelineName)).2
        ∧ (∀ p, p ≠ pipelineName →
            (runAggregationStep env pipelineName processLogs st).lastProcessed p
              = st.lastProcessed p)
        ∧ (runAggregationStep env pipelineName processLogs st).aggregates
            = st.aggregates))
    ∧ ((¬ ∃ l, env.getLastTradeLog = .ok l ∧
        (getTradeLogTimeRange env (st.lastProcessed pipelineName)).2 < l.Timestamp) →
      runAggregationStep env pipelineName processLogs st = st) := by
  simp only [runAggregationStep, hempty, List.isEmpty_nil, if_true]
  cases hlast : env.getLastTradeLog with
  | error err =>
    dsimp only
    constructor
    · rintro ⟨l, hl, _⟩
      exact Except.noConfusion hl
    · intro
      rfl
  | ok l =>
    dsimp only
    by_cases hts : (getTradeLogTimeRange env (st.lastProcessed pipelineName)).2 < l.Timestamp
    · rw [if_pos hts]
      constructor
      · intro
        refine ⟨by simp, fun p hp => by simp [hp], rfl⟩
      · intro hno
        exact absurd ⟨l, rfl, hts⟩ hno
    · rw [if_neg hts]
      constructor
      · rintro ⟨l2, hl2, hts2⟩
        injection hl2 with h
        subst h
        exact absurd hts2 hts
      · intro
        rfl

/-- C6 witness: with no logs in range, `toTs = 100` and a last trade at 500,
the checkpoint of the volume pipeline advances to 100. -/
theorem c6_empty_range_checkpoint_witness :
    (runAggregationStep emptyRangeEnv VOLUME_STAT_AGGREGATION (fun _ s => s)
        sampleAggState).lastProcessed VOLUME_STAT_AGGREGATION
      = (getTradeLogTimeRange emptyRangeEnv
          (sampleAggState.lastProcessed VOLUME_STAT_AGGREGATION)).2 :=
  ((c6_empty_range_checkpoint emptyRangeEnv VOLUME_STAT_AGGREGATION (fun _ s => s)
      sampleAggState rfl).1
    ⟨{ sampleTrade with Timestamp := 500 }, rfl, by decide⟩).1

/-! ## C5: idempotence of truncation -/

/-- The frequencies for which truncation is idempotent: the letter frequencies
and the UTC offsets in [-11, 11].  (For `utc12`..`utc14` the shifted value
lands in the next day and re-truncation moves it again, see the
counterexample.) -/
def idemFreq : Freq → Prop
  | .M => True
  | .H => True
  | .D => True
  | .utc n => -11 ≤ n ∧ n ≤ 11

/-- Arithmetic core, step 1 (positive branch): with a small offset the wrapped
adds collapse to one modulus. -/
theorem wadd_branch_eq (t off : Nat) (hb : off ≤ 39600000000000) :
    wadd (wadd t off / NS_DAY * NS_DAY) off
      = (t + off) % U64SIZE / NS_DAY * NS_DAY + off := by
  unfold wadd NS_DAY U64SIZE at *
  omega

/-- Arithmetic core, step 1 (negative branch): subtracting the wrapped
`2^64 - hoff` is adding `hoff` modulo `2^64`, so the negative branch computes
the same bucket form as the positive one. -/
theorem wsub_branch_eq (t hoff : Nat) (h0 : 0 < hoff) (hb : hoff ≤ 39600000000000) :
    wsub (wsub t (U64SIZE - hoff) / NS_DAY * NS_DAY) (U64SIZE - hoff)
      = (t + hoff) % U64SIZE / NS_DAY * NS_DAY + hoff := by
  unfold wsub NS_DAY U64SIZE at *
  omega

/-- Arithmetic core, step 2: the bucket form is a fixed point of itself when
twice the offset stays below one day. -/
theorem step_bucket_idem (t hoff : Nat) (hb : hoff ≤ 39600000000000) :
    ((t + hoff) % U64SIZE / NS_DAY * NS_DAY + hoff + hoff) % U64SIZE
        / NS_DAY * NS_DAY + hoff
      = (t + hoff) % U64SIZE / NS_DAY * NS_DAY + hoff := by
  have h1 : (t + hoff) % U64SIZE ≤ 18446744073709551615 := by
    unfold U64SIZE
    omega
  have hq : (t + hoff) % U64SIZE / NS_DAY ≤ 213503 :=
    le_trans (Nat.div_le_div_right h1) (by decide)
  have hx : (t + hoff) % U64SIZE / NS_DAY * NS_DAY + hoff + hoff < U64SIZE := by
    have h2 : (t + hoff) % U64SIZE / NS_DAY * NS_DAY ≤ 213503 * NS_DAY :=
      Nat.mul_le_mul_right NS_DAY hq
    unfold NS_DAY U64SIZE at *
    omega
  rw [Nat.mod_eq_of_lt hx]
  have hd : ((t + hoff) % U64SIZE / NS_DAY * NS_DAY + hoff + hoff) / NS_DAY
      = (t + hoff) % U64SIZE / NS_DAY := by
    unfold NS_DAY at *
    omega
  rw [hd]

/-- Arithmetic core, `utc0`: the offset is zero and both wrapped subtractions
are identities below `2^64`. -/
theorem utc_zero_idem (t : Nat) (ht : t < U64SIZE) :
    wsub (wsub (wsub (wsub t 0 / NS_DAY * NS_DAY) 0) 0 / NS_DAY * NS_DAY) 0
      = wsub (wsub t 0 / NS_DAY * NS_DAY) 0 := by
  have hz : ∀ x : Nat, wsub x 0 = x % U64SIZE := by
    intro x
    unfold wsub U64SIZE
    omega
  have hmt : t % U64SIZE = t := Nat.mod_eq_of_lt ht
  have hX1 : t / NS_DAY * NS_DAY % U64SIZE = t / NS_DAY * NS_DAY :=
    Nat.mod_eq_of_lt (lt_of_le_of_lt (Nat.div_mul_le_self t NS_DAY) ht)
  have hdiv : t / NS_DAY * NS_DAY / NS_DAY = t / NS_DAY := by
    unfold NS_DAY
    omega
  simp only [hz, hmt, hX1, hdiv]

/-- `ui64offsetOf` on a positive offset in range is just `offset` hours. -/
theorem ui64offsetOf_pos (n : Int) (h0 : 0 < n) (h14 : n ≤ 14) :
    ui64offsetOf n = 3600000000000 * n.toNat := by
  unfold ui64offsetOf
  have h1 : (0 : Int) ≤ 3600000000000 * n := by omega
  have h2 : (3600000000000 : Int) * n < 18446744073709551616 := by omega
  rw [Int.emod_eq_of_lt h1 h2]
  omega

/-- `ui64offsetOf` on a negative offset in range is the two's-complement wrap
`2^64 - |offset|` hours. -/
theorem ui64offsetOf_neg (n : Int) (hn : n < 0) (h11 : -11 ≤ n) :
    ui64offsetOf n = U64SIZE - 3600000000000 * (-n).toNat := by
  unfold ui64offsetOf U64SIZE
  have h1 : (3600000000000 : Int) * n % 18446744073709551616
      = 3600000000000 * n + 18446744073709551616 := by omega
  rw [h1]
  omega

/-- C5 counterexample: truncation is not idempotent at frequency `utc12`
(the claim's range goes up to `utc14`): at t = 0 the first truncation yields
12h and re-truncating yields 36h. -/
theorem c5_counterexample :
    getTimestampFromTimeZone (getTimestampFromTimeZone 0 (Freq.utc 12)) (Freq.utc 12)
      ≠ getTimestampFromTimeZone 0 (Freq.utc 12) := by
  decide

/-- C5 (amended): truncation is idempotent for every `uint64` timepoint at
frequencies M, H, D and `utc<N>` for N ∈ [-11, 11]; for N ∈ [12, 14] it is
not (see the counterexample). -/
theorem c5_truncation_idempotent (t : Nat) (f : Freq)
    (ht : t < U64SIZE) (hf : idemFreq f) :
    getTimestampFromTimeZone (getTimestampFromTimeZone t f) f
      = getTimestampFromTimeZone t f := by
  cases f with
  | M =>
    show t / NS_MIN * NS_MIN / NS_MIN * NS_MIN = t / NS_MIN * NS_MIN
    unfold NS_MIN
    omega
  | H =>
    show t / NS_HOUR * NS_HOUR / NS_HOUR * NS_HOUR = t / NS_HOUR * NS_HOUR
    unfold NS_HOUR
    omega
  | D =>
    show t / NS_DAY * NS_DAY / NS_DAY * NS_DAY = t / NS_DAY * NS_DAY
    unfold NS_DAY
    omega
  | utc n =>
    obtain ⟨h1, h2⟩ := hf
    rcases lt_trichotomy n 0 with hn | hn | hn
    · have hpos : ¬n > 0 := by omega
      have hu : ui64offsetOf n = U64SIZE - 3600000000000 * (-n).toNat :=
        ui64offsetOf_neg n hn h1
      have hoffpos : 0 < 3600000000000 * (-n).toNat := by omega
      have hoffle : 3600000000000 * (-n).toNat ≤ 39600000000000 := by omega
      simp only [getTimestampFromTimeZone, if_neg hpos, hu]
      rw [wsub_branch_eq t _ hoffpos hoffle, wsub_branch_eq _ _ hoffpos hoffle]
      exact step_bucket_idem t _ hoffle
    · subst hn
      have hpos : ¬(0 : Int) > 0 := by omega
      have hu : ui64offsetOf 0 = 0 := by decide
      simp only [getTimestampFromTimeZone, if_neg hpos, hu]
      exact utc_zero_idem t ht
    · have hu : ui64offsetOf n = 3600000000000 * n.toNat :=
        ui64offsetOf_pos n hn (by omega)
      have hoffle : 3600000000000 * n.toNat ≤ 39600000000000 := by omega
      simp only [getTimestampFromTimeZone, if_pos hn, hu]
      rw [wadd_branch_eq t _ hoffle, wadd_branch_eq _ _ hoffle]
      exact step_bucket_idem t _ hoffle

/-- C5 witness: idempotence at t = 12345 with frequency `utc-3`. -/
theorem c5_truncation_idempotent_witness :
    12345 < U64SIZE ∧ idemFreq (Freq.utc (-3))
    ∧ getTimestampFromTimeZone
        (getTimestampFromTimeZone 12345 (Freq.utc (-3))) (Freq.utc (-3))
      = getTimestampFromTimeZone 12345 (Freq.utc (-3)) :=
  ⟨by decide, ⟨by decide, by decide⟩,
   c5_truncation_idempotent 12345 (Freq.utc (-3)) (by decide) ⟨by decide, by decide⟩⟩

/-! ## C3: the user-volume reducer -/

/-- C3 divergence witness (the claim is right, the code is wrong): for the
concrete ETH → token trade `sampleTrade` (2 ETH sold for 100 tokens,
`ethAmount = 2`), the in-memory bucket accumulated under the *user* address
key carries `ETHVolume = 100`, i.e. the trade's `destAmount`, not its
`ethAmount`: the third `aggregateVolumeStat` call in `aggregateVolumeStats`
passes `destAmount` in the `ethAmount` parameter position. -/
theorem c3_user_volume_divergence :
    (getTradeInfo sampleTokens sampleUserStore sampleTrade).ethAmount = 2
    ∧ volumeAt (aggregateVolumeStats sampleTokens sampleUserStore sampleTrade (fun _ => none))
        "0xabc" Freq.M 60000000000
      = { ETHVolume := 100, USDAmount := 7, Volume := 2 }
    ∧ (100 : ℚ) ≠ 2 := by
  have e1 : addrToString "0xeee" = "0xeee" := by decide
  have e2 : addrToString "0xaaa" = "0xaaa" := by decide
  have e3 : addrToString "0xabc" = "0xabc" := by decide
  have e4 : toLowerStr "0xabc" = "0xabc" := by decide
  have e5 : toLowerStr "0xeee" = "0xeee" := by decide
  have e6 : toLowerStr "0xaaa" = "0xaaa" := by decide
  have hM : getTimestampFromTimeZone 60000000000 Freq.M = 60000000000 := by decide
  have hH : getTimestampFromTimeZone 60000000000 Freq.H = 0 := by decide
  have hD : getTimestampFromTimeZone 60000000000 Freq.D = 0 := by decide
  refine ⟨?_, ?_, by norm_num⟩
  · simp only [getTradeInfo, sampleTokens, sampleTrade, sampleUserStore, List.foldl,
      e1, e2, e3, e4, e5, e6, Token.IsETH]
    norm_num +decide [bigToFloat]
  · simp only [volumeAt, aggregateVolumeStats, aggregateVolumeStat, getTradeInfo,
      sampleTokens, sampleTrade, sampleUserStore, List.foldl,
      e1, e2, e3, e4, e5, e6, hM, hH, hD, Token.IsETH]
    norm_num +decide [bigToFloat]

/-! ## C2: SetFirstTradeEver keeps the running minimum -/

/-- `minFold` over a `some` start is a plain `min`-fold. -/
theorem minFold_some (l : List Nat) : ∀ v : Nat, minFold (some v) l = some (l.foldl min v) := by
  induction l with
  | nil => intro v; rfl
  | cons t l ih => intro v; exact ih (min v t)

/-- A `min`-fold never exceeds its start. -/
theorem foldl_min_le_init (l : List Nat) : ∀ v : Nat, l.foldl min v ≤ v := by
  induction l with
  | nil => intro v; exact le_refl v
  | cons t l ih =>
    intro v
    exact le_trans (ih (min v t)) (min_le_left v t)

/-- A `min`-fold never exceeds a member of the list. -/
theorem foldl_min_le_mem (l : List Nat) :
    ∀ (v t : Nat), t ∈ l → l.foldl min v ≤ t := by
  induction l with
  | nil => intro v t ht; cases ht
  | cons a l ih =>
    intro v t ht
    rcases List.mem_cons.mp ht with h | h
    · subst h
      exact le_trans (foldl_min_le_init l (min v t)) (min_le_right v t)
    · exact ih (min v a) t h

/-- `minFold` of a list containing `t` is `some` value at most `t`. -/
theorem minFold_le_mem (prev : Option Nat) (l : List Nat) (t : Nat) (ht : t ∈ l) :
    ∃ w, minFold prev l = some w ∧ w ≤ t := by
  cases prev with
  | some v =>
    rw [minFold_some]
    exact ⟨_, rfl, foldl_min_le_mem l v t ht⟩
  | none =>
    cases l with
    | nil => cases ht
    | cons a l2 =>
      have hstep : minFold none (a :: l2) = minFold (some a) l2 := rfl
      rw [hstep, minFold_some]
      rcases List.mem_cons.mp ht with h | h
      · subst h
        exact ⟨_, rfl, foldl_min_le_init l2 t⟩
      · exact ⟨_, rfl, foldl_min_le_mem l2 a t h⟩

/-- A step on an entry whose address part is not `A` does not change slot `A`. -/
theorem setFirstTradeEverStep_other (st : String → Option Nat) (kv : String × Nat)
    (A : String) (h : addrPart kv.1 ≠ A) :
    setFirstTradeEverStep st kv A = st A := by
  unfold setFirstTradeEverStep
  split
  · rfl
  · exact if_neg (fun hh : A = addrPart kv.1 => h hh.symm)

/-- A step on an entry whose address part is `A` takes the minimum of the
stored value and the entry's timepoint. -/
theorem setFirstTradeEverStep_self (st : String → Option Nat) (kv : String × Nat)
    (A : String) (h : addrPart kv.1 = A) :
    setFirstTradeEverStep st kv A = minFold (st A) [kv.2] := by
  unfold setFirstTradeEverStep didTrade
  rw [h]
  cases hA : st A with
  | none =>
    simp only [minFold, List.foldl]
    rw [if_neg (by simp), if_pos rfl]
  | some v =>
    simp only [minFold, List.foldl]
    by_cases hv : v ≤ kv.2
    · rw [if_pos (by simp [hv]), hA, min_eq_left hv]
    · rw [if_neg (by simp [hv]), if_pos rfl, min_eq_right (Nat.le_of_lt (Nat.lt_of_not_le hv))]

/-- C2: after `SetFirstTradeEver`, the stored first-trade-ever value of every
address `A` is the minimum of its previous stored value (when present) and all
timepoints in the map whose key's address part is `A`; consequently the stored
value never increases across calls, and stays below every processed timepoint
of `A`. -/
theorem c2_first_trade_ever_min (store : String → Option Nat)
    (entries : List (String × Nat)) (A : String) :
    setFirstTradeEver store entries A
      = minFold (store A)
          ((entries.filter fun kv => decide (addrPart kv.1 = A)).map Prod.snd)
    ∧ (∀ v, store A = some v →
        ∃ w, setFirstTradeEver store entries A = some w ∧ w ≤ v)
    ∧ (∀ kv ∈ entries, addrPart kv.1 = A →
        ∃ w, setFirstTradeEver store entries A = some w ∧ w ≤ kv.2) := by
  have main : ∀ (l : List (String × Nat)) (st : String → Option Nat),
      setFirstTradeEver st l A
        = minFold (st A)
            ((l.filter fun kv => decide (addrPart kv.1 = A)).map Prod.snd) := by
    intro l
    induction l with
    | nil => intro st; rfl
    | cons kv rest ih =>
      intro st
      have hfold : setFirstTradeEver st (kv :: rest) A
          = setFirstTradeEver (setFirstTradeEverStep st kv) rest A := rfl
      by_cases h : addrPart kv.1 = A
      · rw [hfold, ih, setFirstTradeEverStep_self st kv A h]
        rw [List.filter_cons_of_pos (by simpa using h)]
        rfl
      · rw [hfold, ih, setFirstTradeEverStep_other st kv A h]
        rw [List.filter_cons_of_neg (by simpa using h)]
  refine ⟨main entries store, ?_, ?_⟩
  · intro v hv
    rw [main entries store, hv, minFold_some]
    exact ⟨_, rfl, foldl_min_le_init _ v⟩
  · intro kv hkv hA
    have hmem : kv.2 ∈ (entries.filter
        fun kv => decide (addrPart kv.1 = A)).map Prod.snd :=
      List.mem_map.mpr ⟨kv, List.mem_filter.mpr ⟨hkv, by simpa using hA⟩, rfl⟩
    rw [main entries store]
    exact minFold_le_mem (store A) _ kv.2 hmem

/-- C2 witness: with `0xaaa` stored at 9 and entries at 7, 4 (other address)
and 12, the stored value drops to `min 9 (min 7 12) = 7` and stays below the
previous value 9 and below the processed timepoint 7. -/
theorem c2_first_trade_ever_min_witness :
    sampleFirstEverStore "0xaaa" = some 9
    ∧ setFirstTradeEver sampleFirstEverStore sampleFirstEverEntries "0xaaa"
        = minFold (sampleFirstEverStore "0xaaa") [7, 12]
    ∧ (∃ w, setFirstTradeEver sampleFirstEverStore sampleFirstEverEntries "0xaaa"
        = some w ∧ w ≤ 9)
    ∧ (∃ w, setFirstTradeEver sampleFirstEverStore sampleFirstEverEntries "0xaaa"
        = some w ∧ w ≤ 7) := by
  have h := c2_first_trade_ever_min sampleFirstEverStore sampleFirstEverEntries "0xaaa"
  refine ⟨rfl, ?_, h.2.1 9 rfl, h.2.2 ("0xaaa_7", 7) (by decide) (by decide)⟩
  have hfilter : (sampleFirstEverEntries.filter
      fun kv => decide (addrPart kv.1 = "0xaaa")).map Prod.snd = [7, 12] := by
    decide
  rw [h.1, hfilter]

/-! ## C1: the MetricStats merge -/

/-- A loop iteration for timezone `j` does not change the timezone-`i`
component of the metric map when `j ≠ i`. -/
theorem tzComp_step_ne (fid : String → Nat → Int → Nat) (trade : TradeLog)
    (statKey : String) (e b : ℚ) (k : Bool) (a : String → Nat)
    (i j : Int) (h : j ≠ i) (ms : String → Option MetricStatsTimeZone) :
    tzComp (aggregateMetricStatTZ fid trade statKey e b k a j ms) statKey i
      = tzComp ms statKey i := by
  have hij : ¬(i = j) := fun hh => h hh.symm
  simp [tzComp, aggregateMetricStatTZ, hij]

/-- The loop iteration for timezone `i` rewrites the timezone-`i` component
to `tzUpdated` of its previous value. -/
theorem tzComp_step_self (fid : String → Nat → Int → Nat) (trade : TradeLog)
    (statKey : String) (e b : ℚ) (k : Bool) (a : String → Nat)
    (i : Int) (ms : String → Option MetricStatsTimeZone) :
    tzComp (aggregateMetricStatTZ fid trade statKey e b k a i ms) statKey i
      = tzUpdated fid trade e b k a i (tzComp ms statKey i) := by
  simp [tzComp, aggregateMetricStatTZ, tzUpdated]

/-- Folding the loop over timezones not containing `i` preserves the
timezone-`i` component. -/
theorem tzComp_fold_not_mem (fid : String → Nat → Int → Nat) (trade : TradeLog)
    (statKey : String) (e b : ℚ) (k : Bool) (a : String → Nat) (i : Int) :
    ∀ l : List Int, i ∉ l → ∀ ms,
      tzComp (l.foldl (fun ms j => aggregateMetricStatTZ fid trade statKey e b k a j ms) ms)
          statKey i
        = tzComp ms statKey i := by
  intro l
  induction l with
  | nil => intro _ ms; rfl
  | cons j rest ih =>
    intro hmem ms
    have hj : j ≠ i := fun hh => hmem (hh ▸ List.mem_cons_self j rest)
    have hrest : i ∉ rest := fun hh => hmem (List.mem_cons_of_mem j hh)
    rw [List.foldl_cons, ih hrest, tzComp_step_ne fid trade statKey e b k a i j hj ms]

/-- Folding the loop over a duplicate-free timezone list containing `i`
applies `tzUpdated` exactly once to the timezone-`i` component. -/
theorem tzComp_fold_mem (fid : String → Nat → Int → Nat) (trade : TradeLog)
    (statKey : String) (e b : ℚ) (k : Bool) (a : String → Nat) (i : Int) :
    ∀ l : List Int, l.Nodup → i ∈ l → ∀ ms,
      tzComp (l.foldl (fun ms j => aggregateMetricStatTZ fid trade statKey e b k a j ms) ms)
          statKey i
        = tzUpdated fid trade e b k a i (tzComp ms statKey i) := by
  intro l
  induction l with
  | nil => intro _ hmem; cases hmem
  | cons j rest ih =>
    intro hnd hmem ms
    rw [List.foldl_cons]
    rcases List.nodup_cons.mp hnd with ⟨hjrest, hndrest⟩
    by_cases hij : i = j
    · subst hij
      rw [tzComp_fold_not_mem fid trade statKey e b k a i rest hjrest _]
      exact tzComp_step_self fid trade statKey e b k a i ms
    · have hmem2 : i ∈ rest := by
        rcases List.mem_cons.mp hmem with h | h
        · exact absurd h hij
        · exact h
      rw [ih hndrest hmem2 _,
        tzComp_step_ne fid trade statKey e b k a i j (fun hh => hij hh.symm) ms]

/-- Every offset in [-11, 14] is in the aggregation loop's timezone list. -/
theorem mem_TIMEZONES (i : Int) (h1 : -11 ≤ i) (h2 : i ≤ 14) : i ∈ TIMEZONES := by
  interval_cases i <;> decide

/-- C1: for every trade log, every UTC offset i ∈ [-11, 14] and every stat
key, `aggregateMetricStat` updates the bucket at the trade's `utc<i>`
timestamp as follows: `tradeCount`, `ethVolume`, `usdVolume` and `burnFee`
grow by 1, `ethAmount`, `trade.FiatAmount` and `burnFee`;
`newUniqueAddresses` grows by 1 exactly when the snapshotted first-trade-ever
timestamp of the trade's user address equals the trade's timestamp;
`uniqueAddr` (and, when the trade is KYC-ed, `kycEd`) grows by 1 exactly when
that holds or, failing it, when the stored first-trade-in-day value for
(user address, trade timestamp, offset i) equals the trade's timestamp. -/
theorem c1_metric_stat_merge (fid : String → Nat → Int → Nat) (trade : TradeLog)
    (statKey : String) (ethAmount burnFee : ℚ)
    (ms : String → Option MetricStatsTimeZone) (kycEd : Bool)
    (allFirstTradeEver : String → Nat) (i : Int)
    (h1 : -11 ≤ i) (h2 : i ≤ 14) :
    let ts := getTimestampFromTimeZone trade.Timestamp (Freq.utc i)
    let old := statsAt ms statKey i ts
    let out := statsAt
      (aggregateMetricStat fid trade statKey ethAmount burnFee ms kycEd allFirstTradeEver)
      statKey i ts
    let ua := addrToString trade.UserAddress
    out.TradeCount = old.TradeCount + 1
    ∧ out.ETHVolume = old.ETHVolume + ethAmount
    ∧ out.USDVolume = old.USDVolume + trade.FiatAmount
    ∧ out.BurnFee = old.BurnFee + burnFee
    ∧ out.NewUniqueAddresses = old.NewUniqueAddresses
        + (if allFirstTradeEver ua = trade.Timestamp then 1 else 0)
    ∧ out.UniqueAddr = old.UniqueAddr
        + (if allFirstTradeEver ua = trade.Timestamp
              ∨ (allFirstTradeEver ua ≠ trade.Timestamp
                  ∧ fid ua trade.Timestamp i = trade.Timestamp) then 1 else 0)
    ∧ out.KYCEd = old.KYCEd
        + (if kycEd = true ∧ (allFirstTradeEver ua = trade.Timestamp
              ∨ (allFirstTradeEver ua ≠ trade.Timestamp
                  ∧ fid ua trade.Timestamp i = trade.Timestamp)) then 1 else 0)
    ∧ out.ETHPerTrade = old.ETHPerTrade
    ∧ out.USDPerTrade = old.USDPerTrade := by
  dsimp only
  have hnd : TIMEZONES.Nodup := by decide
  have hmem : i ∈ TIMEZONES := mem_TIMEZONES i h1 h2
  have hout : statsAt
      (aggregateMetricStat fid trade statKey ethAmount burnFee ms kycEd allFirstTradeEver)
      statKey i (getTimestampFromTimeZone trade.Timestamp (Freq.utc i))
      = metricMerge trade ethAmount burnFee kycEd
          (allFirstTradeEver (addrToString trade.UserAddress))
          (fid (addrToString trade.UserAddress) trade.Timestamp i)
          (statsAt ms statKey i (getTimestampFromTimeZone trade.Timestamp (Freq.utc i))) := by
    have hfold := tzComp_fold_mem fid trade statKey ethAmount burnFee kycEd
      allFirstTradeEver i TIMEZONES hnd hmem ms
    have hsa : ∀ m, statsAt m statKey i (getTimestampFromTimeZone trade.Timestamp (Freq.utc i))
        = ((tzComp m statKey i).getD emptyInner
            (getTimestampFromTimeZone trade.Timestamp (Freq.utc i))).getD zeroMetricStats :=
      fun m => rfl
    rw [hsa, hsa]
    show ((tzComp (TIMEZONES.foldl
        (fun ms j => aggregateMetricStatTZ fid trade statKey ethAmount burnFee kycEd
          allFirstTradeEver j ms) ms) statKey i).getD emptyInner
        (getTimestampFromTimeZone trade.Timestamp (Freq.utc i))).getD zeroMetricStats = _
    rw [hfold]
    simp [tzUpdated]
  rw [hout]
  by_cases hfe : allFirstTradeEver (addrToString trade.UserAddress) = trade.Timestamp
  · by_cases hk : kycEd = true
    · simp [metricMerge, hfe, hk]
    · simp [metricMerge, hfe, hk]
  · by_cases hfd : fid (addrToString trade.UserAddress) trade.Timestamp i = trade.Timestamp
    · by_cases hk : kycEd = true
      · simp [metricMerge, hfe, hfd, hk]
      · simp [metricMerge, hfe, hfd, hk]
    · simp [metricMerge, hfe, hfd]

/-- C1 witness: the merge at offset 0 for the sample trade (whose user's
first-ever trade is the trade itself, KYC-ed, `ethAmount = 2`,
`fiatAmount = 7`). -/
theorem c1_metric_stat_merge_witness :
    let ts := getTimestampFromTimeZone sampleTrade.Timestamp (Freq.utc 0)
    let old := statsAt (fun _ => none) "trade_summary" 0 ts
    let out := statsAt
      (aggregateMetricStat sampleFirstInDay sampleTrade "trade_summary" 2 0
        (fun _ => none) true sampleAllFirstTradeEver)
      "trade_summary" 0 ts
    let ua := addrToString sampleTrade.UserAddress
    out.TradeCount = old.TradeCount + 1
    ∧ out.ETHVolume = old.ETHVolume + 2
    ∧ out.USDVolume = old.USDVolume + sampleTrade.FiatAmount
    ∧ out.BurnFee = old.BurnFee + 0
    ∧ out.NewUniqueAddresses = old.NewUniqueAddresses
        + (if sampleAllFirstTradeEver ua = sampleTrade.Timestamp then 1 else 0)
    ∧ out.UniqueAddr = old.UniqueAddr
        + (if sampleAllFirstTradeEver ua = sampleTrade.Timestamp
              ∨ (sampleAllFirstTradeEver ua ≠ sampleTrade.Timestamp
                  ∧ sampleFirstInDay ua sampleTrade.Timestamp 0 = sampleTrade.Timestamp)
            then 1 else 0)
    ∧ out.KYCEd = old.KYCEd
        + (if true = true ∧ (sampleAllFirstTradeEver ua = sampleTrade.Timestamp
              ∨ (sampleAllFirstTradeEver ua ≠ sampleTrade.Timestamp
                  ∧ sampleFirstInDay ua sampleTrade.Timestamp 0 = sampleTrade.Timestamp))
            then 1 else 0)
    ∧ out.ETHPerTrade = old.ETHPerTrade
    ∧ out.USDPerTrade = old.USDPerTrade :=
  c1_metric_stat_merge sampleFirstInDay sampleTrade "trade_summary" 2 0
    (fun _ => none) true sampleAllFirstTradeEver 0 (by decide) (by decide)
